import Mathlib

/-!
Verification of the WannaCRI CLI front-end (`src/wannacri/wannacri.py`).

The file under `src/` is the CLI glue: key parsing, USM discovery on the
filesystem, and the orchestration of the four commands (`extract`, `create`,
`probe`, `encrypt`) around the core `Usm` container.  The core itself
(`wannacri.usm`, `wannacri.codec`) is not part of the sources, so its
operations (`Usm.open`, `demux`, `stream`, `generate_keys`,
`Sofdec2Codec.from_file`, `ffmpeg.probe`) are embedded as an explicit
collaborator record `Core`, and theorems about the CLI quantify over it.
Filesystem queries (`os.path.isfile`, `Path.glob`, reading the first four
bytes of a file, ...) are likewise abstracted into a `FileSys` record.

Python's `int(s, base)` literal parsing, which `key_normalize` relies on, is
embedded directly (whitespace stripping, sign, `0x`/`0o`/`0b` prefixes,
underscore separators, the base-0 leading-zero restriction).
-/

set_option linter.unusedVariables false

/-! ## Python `int(s, base)` parsing, as used by `key_normalize` -/

/-- Value of a single digit character in the given base, as in CPython's
`int` parsing: `0`-`9`, then `a`-`z` / `A`-`Z` for values 10..35, rejected
when the value is not below the base. -/
def digitVal? (base : Nat) (c : Char) : Option Nat :=
  let d? : Option Nat :=
    if '0' ≤ c ∧ c ≤ '9' then some (c.toNat - 48)
    else if 'a' ≤ c ∧ c ≤ 'z' then some (c.toNat - 87)
    else if 'A' ≤ c ∧ c ≤ 'Z' then some (c.toNat - 55)
    else none
  match d? with
  | some d => if d < base then some d else none
  | none => none

/-- Digit sequence with optional single underscores between digits
(CPython grammar `digit (["_"] digit)*`), continuing from accumulator
`acc`. -/
def pyDigitsGo (base : Nat) : Nat → List Char → Option Nat
  | acc, [] => some acc
  | acc, c :: rest =>
    if c = '_' then
      match rest with
      | [] => none
      | c2 :: rest2 =>
        match digitVal? base c2 with
        | some d => pyDigitsGo base (acc * base + d) rest2
        | none => none
    else
      match digitVal? base c with
      | some d => pyDigitsGo base (acc * base + d) rest
      | none => none

/-- At least one digit, underscores only between digits. -/
def pyDigits (base : Nat) : List Char → Option Nat
  | [] => none
  | c :: rest =>
    match digitVal? base c with
    | some d => pyDigitsGo base d rest
    | none => none

/-- Digits directly after a base prefix: CPython additionally allows one
underscore between the prefix and the first digit (`0x_ff`). -/
def pyDigitsPref (base : Nat) (l : List Char) : Option Nat :=
  match l with
  | [] => none
  | c :: rest => if c = '_' then pyDigits base rest else pyDigits base (c :: rest)

/-- Base-0 decimal tail: a nonzero value must not start with `'0'`
(CPython rejects `int("010", 0)` as ambiguous with octal). -/
def pyDec0 (l : List Char) : Option Nat :=
  match pyDigits 10 l with
  | some v => if l.head? = some '0' ∧ v ≠ 0 then none else some v
  | none => none

/-- Body of `int(s, 0)` after whitespace/sign handling: `0x`/`0X`, `0o`/`0O`,
`0b`/`0B` prefixes select the base, otherwise decimal with the leading-zero
restriction. -/
def pyIntBase0Body : List Char → Option Nat
  | c0 :: c1 :: rest =>
    if c0 = '0' ∧ (c1 = 'x' ∨ c1 = 'X') then pyDigitsPref 16 rest
    else if c0 = '0' ∧ (c1 = 'o' ∨ c1 = 'O') then pyDigitsPref 8 rest
    else if c0 = '0' ∧ (c1 = 'b' ∨ c1 = 'B') then pyDigitsPref 2 rest
    else pyDec0 (c0 :: c1 :: rest)
  | l => pyDec0 l

/-- Body of `int(s, 16)`: an optional `0x`/`0X` prefix, then hex digits;
no leading-zero restriction. -/
def pyIntBase16Body : List Char → Option Nat
  | c0 :: c1 :: rest =>
    if c0 = '0' ∧ (c1 = 'x' ∨ c1 = 'X') then pyDigitsPref 16 rest
    else pyDigits 16 (c0 :: c1 :: rest)
  | l => pyDigits 16 l

/-- ASCII whitespace stripped by CPython around an integer literal. -/
def isPyWs (c : Char) : Bool :=
  c = ' ' || c = '\t' || c = '\n' || c = '\x0b' || c = '\x0c' || c = '\r'

/-- Strip whitespace from both ends. -/
def stripWs (l : List Char) : List Char :=
  ((l.dropWhile isPyWs).reverse.dropWhile isPyWs).reverse

/-- Common wrapper of `int(s, base)`: strip whitespace, take one optional
sign, then parse the body; `none` models a raised `ValueError`. -/
def pyIntOf (body : List Char → Option Nat) (s : String) : Option Int :=
  match stripWs s.toList with
  | [] => none
  | c :: rest =>
    if c = '+' then (body rest).map Int.ofNat
    else if c = '-' then (body rest).map (fun n => -(Int.ofNat n))
    else (body (c :: rest)).map Int.ofNat

/-- `int(s, 0)`. -/
def pyInt0 (s : String) : Option Int := pyIntOf pyIntBase0Body s

/-- `int(s, 16)`. -/
def pyInt16 (s : String) : Option Int := pyIntOf pyIntBase16Body s

/-- `key_normalize` from `wannacri.py`: try `int(key_str, 0)`; on
`ValueError`, prepend `"0x"` and parse the result with `int(_, 16)`.
`none` models an uncaught `ValueError` from the second attempt. -/
def key_normalize (s : String) : Option Int :=
  match pyInt0 s with
  | some v => some v
  | none => pyInt16 ("0x" ++ s)

/-! ## Paths (`os.path` / `pathlib` operations used by the CLI) -/

/-- Index of the last occurrence of `c` in `l`. -/
def rfindIdx (l : List Char) (c : Char) : Option Nat :=
  match l.reverse.findIdx? (fun x => x = c) with
  | none => none
  | some i => some (l.length - 1 - i)

/-- Root part of `os.path.splitext(p)`: drop the extension that starts at
the last dot of the final component, unless every character of the
component before that dot is itself a dot (so `.bashrc` keeps its name). -/
def splitextRoot (p : String) : String :=
  let l := p.toList
  match rfindIdx l '.' with
  | none => p
  | some di =>
    let si : Nat :=
      match rfindIdx l '/' with
      | none => 0
      | some s => s + 1
    if di < si then p
    else if ((l.drop si).take (di - si)).any (fun c => c ≠ '.') then
      String.mk (l.take di)
    else p

/-- Split a character list on a separator character (the fields, in order;
like `str.split(sep)` in Python). -/
def splitOnChar (sep : Char) : List Char → List (List Char)
  | [] => [[]]
  | c :: rest =>
    let r := splitOnChar sep rest
    if c = sep then [] :: r
    else
      match r with
      | [] => [[c]]
      | h :: t => (c :: h) :: t

/-- Components of a POSIX pure path: split on `/`, drop empty and `.`
components (as `pathlib.PurePosixPath` does). -/
def pathParts (p : String) : List String :=
  ((splitOnChar '/' p.toList).map String.mk).filter
    (fun s => decide (s ≠ "") && decide (s ≠ "."))

/-- First character of a string, if any. -/
def strHead? (s : String) : Option Char := s.toList.head?

/-- Last character of a string, if any. -/
def strLast? (s : String) : Option Char := s.toList.getLast?

/-- Whether the path is absolute. -/
def isAbsPath (p : String) : Bool := strHead? p = some '/'

/-- Rebuild a path string from its components, as `str()` of a
`PurePosixPath`. -/
def joinParts (abs : Bool) (parts : List String) : String :=
  match parts with
  | [] => if abs then "/" else "."
  | q :: rest =>
    (if abs then "/" else "") ++ q ++ rest.foldl (fun acc r => acc ++ "/" ++ r) ""

/-- `pathlib.Path(p).parent`. -/
def parentPath (p : String) : String :=
  joinParts (isAbsPath p) (pathParts p).dropLast

/-- `pathlib.PurePath(p).name`: the final component. -/
def pathName (p : String) : String :=
  ((pathParts p).getLast?).getD ""

/-- `Path(a).joinpath(b)` for a relative `b` (string form). -/
def joinPath (a b : String) : String :=
  if strHead? b = some '/' then b
  else if strLast? a = some '/' then a ++ b
  else a ++ "/" ++ b

/-- `os.path.basename`: the part after the last `/`. -/
def baseName (p : String) : String :=
  (((splitOnChar '/' p.toList).map String.mk).getLast?).getD ""

deriving instance DecidableEq for Except

/-! ## Data model: collaborator core and filesystem -/

/-- Video codec recognized by the prober.  Modelled from the spec: the
`wannacri.codec` module is not under `src/`; the spec names VP9 and H.264
as the implemented video codecs, everything else is unsupported. -/
inductive Sofdec2Codec
  | vp9
  | h264
  | other
  deriving DecidableEq, Repr

/-- Serialization cipher mode of `Usm.stream` (imported from the core). -/
inductive OpMode
  | NONE
  | ENCRYPT
  | DECRYPT
  deriving DecidableEq, Repr

/-- A video stream handed to the `Usm` constructor (`Vp9(input, ffprobe_path)`
or `H264(input, ffprobe_path)`). -/
structure Video where
  path : String
  codec : Sofdec2Codec
  ffprobePath : Option String
  deriving DecidableEq, Repr

/-- Modelled from the spec: the `Usm` container object of the core
(`wannacri.usm`, not under `src/`).  The CLI only constructs it, installs
`video_key` / `audio_key` (§4.5 mutators), and consumes `demux` / `stream`;
those operations live in the `Core` record below. -/
structure Usm where
  videos : List Video := []
  audios : Option (List String) := none
  video_key : Option Int := none
  audio_key : Option Int := none
  deriving DecidableEq, Repr

/-- Core failure kinds (§7 of the spec); in the Python source these all
surface as `ValueError` raised by the core. -/
inductive UsmError
  | notUsm
  | malformedTable
  | malformedChunk
  | decryptionRequired
  | keyMissing
  | unsupportedCodec
  | streamOrdering
  | ioFailure
  deriving DecidableEq, Repr

/-- Errors that escape a CLI command (uncaught Python exceptions). -/
inductive CliError
  | notUsmFile
  | typeError
  | notImplemented
  | coreError (e : UsmError)
  deriving DecidableEq, Repr

/-- How `ffmpeg.probe` can fail in `probe_usm`: a `ValueError`/`RuntimeError`
versus an `ffmpeg.Error`. -/
inductive FfmpegFailure
  | programError
  | ffmpegError
  deriving DecidableEq, Repr

/-- The collaborator core (`wannacri.usm` / `wannacri.codec` / `ffmpeg`),
not under `src/`: the CLI theorems are universally quantified over it.
Fields mirror the calls the CLI makes:
`openResult path encoding key` is `Usm.open(path, encoding=..., key=...)`
(`none` for an omitted keyword), `demuxResult u path save_video save_audio
save_pages folder_name` is `usm.demux(...)` returning `(videos, audios)`
file lists, `streamPackets u mode encoding` is the finite packet sequence
of `usm.stream(mode, encoding=...)`, `generateKeys` is `generate_keys`,
`probeCodec` is `Sofdec2Codec.from_file`, and `ffprobeResult` is
`ffmpeg.probe` on one output file. -/
structure Core where
  openResult : String → Option String → Option Int → Except UsmError Usm
  demuxResult : Usm → String → Bool → Bool → Bool → Option String →
    Except UsmError (List String × List String)
  streamPackets : Usm → OpMode → String → List (List Nat)
  generateKeys : Option Int → Int × Int
  probeCodec : String → Sofdec2Codec
  ffprobeResult : String → Except FfmpegFailure Unit

/-- Modelled from the spec: constructing `Usm(videos=..., audios=..., key=...)`
with a key installs the derived cipher state (§4.5: the key mutators install
cipher state; §6: `create` passes the key at construction); without a key the
container is plain.  The key derivation itself is the core's `generate_keys`. -/
def Usm.new (core : Core) (videos : List Video) (audios : Option (List String))
    (key : Option Int) : Usm :=
  match key with
  | none => { videos := videos, audios := audios }
  | some k =>
    { videos := videos
      audios := audios
      video_key := some (core.generateKeys (some k)).1
      audio_key := some (core.generateKeys (some k)).2 }

/-- The filesystem as the CLI observes it: `os.path.isfile`, `Path.is_dir`,
the first four bytes of a file, `Path(d).glob("*.usm")` (immediate children
matching the glob, in glob enumeration order), `Path.resolve`, `os.listdir`,
`os.path.abspath` and `os.name`. -/
structure FileSys where
  isFile : String → Bool
  isDir : String → Bool
  read4 : String → List Nat
  globUsm : String → List String
  resolve : String → String
  listdir : String → List String
  abspath : String → String
  osName : String

/-- Modelled from the spec: `is_usm` (imported from the core, not under
`src/`) checks that the four magic bytes are the `CRID` signature
("Fails with `NotUsm` if first 4 bytes ≠ `CRID`"). -/
def is_usm (b : List Nat) : Bool :=
  b = [0x43, 0x52, 0x49, 0x44]

/-- `find_usm` returns path values of different Python types: the
single-file branch returns the input `str` unchanged, the directory branch
returns `pathlib.Path` objects from `glob` — `extract_usm` and `probe_usm`
later call `Path`-only attributes on them, so the distinction is
observable. -/
inductive PyPath
  | pstr (s : String)
  | ppath (s : String)
  deriving DecidableEq, Repr

/-- The underlying string (what `str()` or an f-string prints). -/
def PyPath.toStr : PyPath → String
  | .pstr s => s
  | .ppath s => s

/-! ## The CLI commands of `wannacri.py` -/

/-- `find_usm` from `wannacri.py`: a file input must pass the `is_usm`
signature check (else `ValueError("Not a usm file.")`); otherwise the
input is globbed for `*.usm` children and those passing `is_usm` are kept,
in glob order, with no error even when none qualify. -/
def find_usm (fs : FileSys) (directory : String) : Except CliError (List PyPath) :=
  if fs.isFile directory then
    if is_usm (fs.read4 directory) then .ok [PyPath.pstr directory]
    else .error CliError.notUsmFile
  else
    .ok (((fs.globUsm directory).filter (fun f => is_usm (fs.read4 f))).map PyPath.ppath)

/-- The body of `extract_usm.process_usm` after `Usm.open` has produced
`opened`: a `ValueError` (any core failure) is caught and prints the two
lines `ERROR` / `Please run probe on <file>`; on success the demux call is
built.  In the single-file (`str`) branch, evaluating `usmfile.parent` for
the `folder_name=` argument raises `AttributeError`, which is not a
`ValueError`: it escapes `process_usm` into the executor future, whose
result is never inspected, so it is silently swallowed and nothing is
printed. -/
def process_opened (core : Core) (output : String) (pages : Bool)
    (usmfile : PyPath) (opened : Except UsmError Usm) : List String :=
  match opened with
  | .error _ => ["ERROR", "Please run probe on " ++ usmfile.toStr]
  | .ok u =>
    match usmfile with
    | .pstr _ => []
    | .ppath p =>
      match core.demuxResult u output true true pages (some (parentPath p)) with
      | .error _ => ["ERROR", "Please run probe on " ++ usmfile.toStr]
      | .ok _ => []

/-- One worker task of `extract_usm`: opens its own container from its own
file (`Usm.open(usmfile, encoding=encoding, key=key)`) and processes it;
the returned list is what the task prints. -/
def process_usm (core : Core) (output : String) (key : Option Int)
    (encoding : String) (pages : Bool) (usmfile : PyPath) : List String :=
  process_opened core output pages usmfile
    (core.openResult usmfile.toStr (some encoding) key)

/-- `extract_usm`: `find_usm` runs outside any handler, so its `ValueError`
escapes (non-zero exit); each found file is handed to its own
`process_usm` task in a thread pool, and the command returns normally
(exit code 0) regardless of per-file outcomes.  The result collects each
task's printed lines in file order. -/
def extract_usm (core : Core) (fs : FileSys) (input : String) (output : String)
    (key : Option Int) (encoding : String) (pages : Bool) :
    Except CliError (List (List String)) :=
  match find_usm fs input with
  | .error e => .error e
  | .ok files => .ok (files.map (process_usm core output key encoding pages))

/-- Process exit code of a command embedding: 0 on normal return, 1 when an
uncaught exception escapes to the interpreter. -/
def exit_code {α : Type} : Except CliError α → Nat
  | .ok _ => 0
  | .error _ => 1

/-- `find_ffprobe`: on non-Windows (`os.name != "nt"`) returns `None`;
otherwise a file path is returned as-is and a directory is searched for
`ffprobe.exe`. -/
def find_ffprobe (fs : FileSys) (path : String) : Option String :=
  if fs.osName ≠ "nt" then none
  else if fs.isFile path then some path
  else if fs.isDir path then
    match (fs.listdir path).find? (fun f => baseName f = "ffprobe.exe") with
    | some _ => some (fs.abspath (joinPath path "ffprobe.exe"))
    | none => none
  else none

/-- The mode `create_usm` passes to `stream`:
`OpMode.NONE if key is None else OpMode.ENCRYPT`. -/
def create_mode : Option Int → OpMode
  | none => OpMode.NONE
  | some _ => OpMode.ENCRYPT

/-- `create_usm`: probes the input's codec (`NotImplementedError` unless
VP9 or H.264 — no output file is opened in that case), builds the stream
list, constructs `Usm(videos=[video], audios=audios, key=key)`, and writes
every packet of `stream(mode, encoding)`.  The write target is
`os.path.splitext(input)[0] + ".usm"`: the `output` option is accepted but
never read.  The result is the written path and its packet list. -/
def create_usm (core : Core) (fs : FileSys) (input : String)
    (input_audio : Option String) (output : Option String) (ffprobe : String)
    (key : Option Int) (encoding : String) :
    Except CliError (String × List (List Nat)) :=
  let ffprobe_path := find_ffprobe fs ffprobe
  match core.probeCodec input with
  | Sofdec2Codec.other => .error CliError.notImplemented
  | c =>
    let video : Video := ⟨input, c, ffprobe_path⟩
    let audios := input_audio.map (fun a => [a])
    let filename := splitextRoot input
    let usm := Usm.new core [video] audios key
    .ok (filename ++ ".usm", core.streamPackets usm (create_mode key) encoding)

/-- Probing of a list of demuxed files in `probe_usm`: the first failing
`ffmpeg.probe` aborts the list. -/
def probeList (core : Core) : List String → Option FfmpegFailure
  | [] => none
  | v :: rest =>
    match core.ffprobeResult v with
    | .error e => some e
    | .ok _ => probeList core rest

/-- One iteration of `probe_usm`'s loop body after the logger is set up
(log-file handling is I/O glue outside the model); the returned list is
the sequence of log records that decide the file's outcome.  `Usm.open`
and `demux` failures are caught (`continue`), ffprobe failures are logged
per kind. -/
def probe_one (core : Core) (tempDir : String) (encoding : String)
    (f : String) : List String :=
  match core.openResult f (some encoding) none with
  | .error _ => ["Error occurred in parsing usm file"]
  | .ok u =>
    match core.demuxResult u tempDir true true false none with
    | .error _ => ["Error occurred in demuxing usm file"]
    | .ok (videos, audios) =>
      match probeList core videos with
      | some FfmpegFailure.programError =>
        ["Program error occurred in ffmpeg probe in videos"]
      | some FfmpegFailure.ffmpegError =>
        ["FFmpeg error occurred in ffmpeg probe in videos."]
      | none =>
        match probeList core audios with
        | some FfmpegFailure.programError =>
          ["Program error occurred in ffmpeg probe in audios"]
        | some FfmpegFailure.ffmpegError =>
          ["FFmpeg error occurred in ffmpeg probe in audios."]
        | none => ["Done probing usm file"]

/-- The per-file part of `probe_usm`: before the `try` blocks, the log
record evaluates `usmfile.replace(input, "")` — on a `pathlib.Path` (the
directory branch of `find_usm`) `Path.replace` takes a single target
argument, so this raises an uncaught `TypeError`. -/
def probe_files (core : Core) (tempDir : String) (encoding : String) :
    List PyPath → Except CliError (List (List String))
  | [] => .ok []
  | PyPath.ppath _ :: _ => .error CliError.typeError
  | PyPath.pstr s :: rest =>
    match probe_files core tempDir encoding rest with
    | .error e => .error e
    | .ok logs => .ok (probe_one core tempDir encoding s :: logs)

/-- `probe_usm`: `find_usm` first (its `ValueError` escapes), then the
per-file loop. -/
def probe_usm (core : Core) (fs : FileSys) (input : String) (tempDir : String)
    (encoding : String) : Except CliError (List (List String)) :=
  match find_usm fs input with
  | .error e => .error e
  | .ok files => probe_files core tempDir encoding files

/-- Line 259 of `wannacri.py`:
`usm.video_key, usm.audio_key = generate_keys(key)` — both keys are
installed together from the one key argument. -/
def install_keys (core : Core) (key : Option Int) (u : Usm) : Usm :=
  { u with
    video_key := some (core.generateKeys key).1
    audio_key := some (core.generateKeys key).2 }

/-- The output directory of `encrypt_usm`:
`dir_or_parent_dir(input) if output is None else pathlib.Path(output)`. -/
def dir_or_parent_dir (fs : FileSys) (path : String) : String :=
  if fs.isDir path then fs.resolve (parentPath path) else path

/-- Sequential per-file loop of `encrypt_usm`: each file is opened
(`Usm.open(filepath)`, defaults for encoding and key), both keys are
installed via `install_keys`, and every packet of
`stream(OpMode.ENCRYPT, encoding)` is written to `outdir.joinpath(filename)`.
An uncaught core error aborts the loop, keeping the writes made so far. -/
def encrypt_files (core : Core) (outdir : String) (encoding : String)
    (key : Option Int) : List PyPath →
    List (String × List (List Nat)) × Option CliError
  | [] => ([], none)
  | f :: rest =>
    match core.openResult f.toStr none none with
    | .error k => ([], some (CliError.coreError k))
    | .ok u =>
      let u2 := install_keys core key u
      let w := (joinPath outdir (pathName f.toStr),
                core.streamPackets u2 OpMode.ENCRYPT encoding)
      let p := encrypt_files core outdir encoding key rest
      (w :: p.1, p.2)

/-- Line 253 of `wannacri.py`:
`outdir = dir_or_parent_dir(input) if output is None else pathlib.Path(output)`. -/
def encrypt_outdir (fs : FileSys) (input : String) (output : Option String) : String :=
  match output with
  | none => dir_or_parent_dir fs input
  | some o => o

/-- `encrypt_usm`: compute the output directory, find the USM files, then
run the per-file loop.  The first component lists the performed writes
(path, packets); the second is the escaping exception, if any. -/
def encrypt_usm (core : Core) (fs : FileSys) (input : String)
    (output : Option String) (key : Option Int) (encoding : String) :
    List (String × List (List Nat)) × Option CliError :=
  match find_usm fs input with
  | .error e => ([], some e)
  | .ok files => encrypt_files core (encrypt_outdir fs input output) encoding key files

/-! ## Concrete filesystem and core instances (used by witnesses) -/

/-- The `CRID` signature bytes. -/
def crid4 : List Nat := [0x43, 0x52, 0x49, 0x44]

/-- A small filesystem: one good USM file, one bad file, one directory
with two USM children. -/
def sampleFs : FileSys :=
  { isFile := fun p => p = "film.usm" || p = "bad.bin"
    isDir := fun p => p = "d"
    read4 := fun p => if p = "bad.bin" then [0, 0, 0, 0] else crid4
    globUsm := fun p => if p = "d" then ["d/a.usm", "d/b.usm"] else []
    resolve := fun p => p
    listdir := fun _ => []
    abspath := fun p => p
    osName := "posix" }

/-- A core whose operations all succeed. -/
def sampleCore : Core :=
  { openResult := fun _ _ _ => .ok {}
    demuxResult := fun _ _ _ _ _ _ => .ok (["v.ivf"], ["a.hca"])
    streamPackets := fun _ _ _ => [[1, 2], [3]]
    generateKeys := fun _ => (7, 9)
    probeCodec := fun p => if p = "clip.avi" then Sofdec2Codec.other else Sofdec2Codec.vp9
    ffprobeResult := fun _ => .ok () }

/-- A core whose `Usm.open` always fails with `MalformedTable`. -/
def failCore : Core :=
  { sampleCore with openResult := fun _ _ _ => .error UsmError.malformedTable }

/-! ## Helper lemmas: digit characters and the `int` parser -/

/-- The character of a decimal digit. -/
def decChar (d : Nat) : Char := Char.ofNat (48 + d)

/-- The character of a lowercase hexadecimal digit. -/
def hexChar (d : Nat) : Char :=
  if d < 10 then Char.ofNat (48 + d) else Char.ofNat (87 + d)

/-- Value of a digit list in a base (most significant first). -/
def digitsFold (base : Nat) (ds : List Nat) : Nat :=
  ds.foldl (fun a d => a * base + d) 0

theorem decChar_dv {d : Nat} (h : d < 10) : digitVal? 10 (decChar d) = some d := by
  interval_cases d <;> decide

theorem decChar_ne_us {d : Nat} (h : d < 10) : ¬(decChar d = '_') := by
  interval_cases d <;> decide

theorem decChar_ws {d : Nat} (h : d < 10) : isPyWs (decChar d) = false := by
  interval_cases d <;> decide

theorem decChar_ne_plus {d : Nat} (h : d < 10) : ¬(decChar d = '+') := by
  interval_cases d <;> decide

theorem decChar_ne_minus {d : Nat} (h : d < 10) : ¬(decChar d = '-') := by
  interval_cases d <;> decide

theorem decChar_zero_iff {d : Nat} (h : d < 10) : decChar d = '0' ↔ d = 0 := by
  interval_cases d <;> decide

theorem decChar_ne_mark {d : Nat} (h : d < 10) :
    ¬(decChar d = 'x' ∨ decChar d = 'X') ∧ ¬(decChar d = 'o' ∨ decChar d = 'O') ∧
    ¬(decChar d = 'b' ∨ decChar d = 'B') := by
  interval_cases d <;> decide

theorem hexChar_dv {d : Nat} (h : d < 16) : digitVal? 16 (hexChar d) = some d := by
  interval_cases d <;> decide

theorem hexChar_ne_us {d : Nat} (h : d < 16) : ¬(hexChar d = '_') := by
  interval_cases d <;> decide

theorem hexChar_ws {d : Nat} (h : d < 16) : isPyWs (hexChar d) = false := by
  interval_cases d <;> decide

theorem dropWhile_eq_self_of {p : Char → Bool} :
    ∀ l : List Char, (∀ c ∈ l, p c = false) → l.dropWhile p = l := by
  intro l h
  cases l with
  | nil => rfl
  | cons c rest =>
    rw [List.dropWhile_cons, h c (List.mem_cons_self c rest)]
    simp

theorem stripWs_eq_self (l : List Char) (h : ∀ c ∈ l, isPyWs c = false) :
    stripWs l = l := by
  unfold stripWs
  rw [dropWhile_eq_self_of l h,
      dropWhile_eq_self_of l.reverse (fun c hc => h c (List.mem_reverse.mp hc)),
      List.reverse_reverse]

theorem pyDigitsGo_map (base : Nat) (f : Nat → Char)
    (hf : ∀ d, d < base → digitVal? base (f d) = some d)
    (hu : ∀ d, d < base → ¬(f d = '_')) :
    ∀ (ds : List Nat) (acc : Nat), (∀ d ∈ ds, d < base) →
      pyDigitsGo base acc (ds.map f) =
        some (ds.foldl (fun a d => a * base + d) acc) := by
  intro ds
  induction ds with
  | nil => intro acc _; rfl
  | cons d rest ih =>
    intro acc h
    have hd : d < base := h d (List.mem_cons_self d rest)
    have hrest : ∀ x ∈ rest, x < base := fun x hx => h x (List.mem_cons_of_mem d hx)
    rw [List.map_cons, pyDigitsGo.eq_def]
    simp only [if_neg (hu d hd), hf d hd, List.foldl_cons]
    exact ih (acc * base + d) hrest

theorem pyDigits_map (base : Nat) (f : Nat → Char)
    (hf : ∀ d, d < base → digitVal? base (f d) = some d)
    (hu : ∀ d, d < base → ¬(f d = '_'))
    (d0 : Nat) (rest : List Nat) (h : ∀ x ∈ d0 :: rest, x < base) :
    pyDigits base ((d0 :: rest).map f) = some (digitsFold base (d0 :: rest)) := by
  have hd0 : d0 < base := h d0 (List.mem_cons_self d0 rest)
  have hrest : ∀ x ∈ rest, x < base := fun x hx => h x (List.mem_cons_of_mem d0 hx)
  simp only [List.map_cons, pyDigits, hf d0 hd0]
  rw [pyDigitsGo_map base f hf hu rest d0 hrest]
  simp [digitsFold]

/-- `key_normalize` on a canonical decimal digit string without a spurious
leading zero returns the decimal value (the happy half of the decimal
claim). -/
theorem key_normalize_decimal (ds : List Nat) (h1 : ds ≠ [])
    (h2 : ∀ d ∈ ds, d < 10)
    (h3 : ds.head? = some 0 → digitsFold 10 ds = 0) :
    key_normalize (String.mk (ds.map decChar)) = some (Int.ofNat (digitsFold 10 ds)) := by
  obtain ⟨d0, rest, rfl⟩ : ∃ d0 rest, ds = d0 :: rest := by
    cases ds with
    | nil => exact absurd rfl h1
    | cons a l => exact ⟨a, l, rfl⟩
  have hd0 : d0 < 10 := h2 d0 (List.mem_cons_self d0 rest)
  have hws : ∀ x ∈ decChar d0 :: rest.map decChar, isPyWs x = false := by
    intro x hx
    have hx2 : x ∈ (d0 :: rest).map decChar := by simpa using hx
    obtain ⟨d, hd, rfl⟩ := List.mem_map.mp hx2
    exact decChar_ws (h2 d hd)
  have hdec0 : pyDec0 (decChar d0 :: rest.map decChar) =
      some (digitsFold 10 (d0 :: rest)) := by
    have hpd := pyDigits_map 10 decChar (fun d hd => decChar_dv hd)
      (fun d hd => decChar_ne_us hd) d0 rest h2
    simp only [List.map_cons] at hpd
    unfold pyDec0
    rw [hpd]
    by_cases h0 : d0 = 0
    · subst h0
      rw [h3 rfl]
      simp
    · have hne : ¬(decChar d0 = '0') := fun hc => h0 ((decChar_zero_iff hd0).mp hc)
      simp [hne]
  have hbody : pyIntBase0Body (decChar d0 :: rest.map decChar) =
      some (digitsFold 10 (d0 :: rest)) := by
    cases rest with
    | nil => simpa [pyIntBase0Body] using hdec0
    | cons d1 rest2 =>
      have hd1 : d1 < 10 := h2 d1 (by simp)
      simp only [List.map_cons]
      simp only [List.map_cons] at hdec0
      rw [pyIntBase0Body]
      rw [if_neg (fun hc => (decChar_ne_mark hd1).1 hc.2),
          if_neg (fun hc => (decChar_ne_mark hd1).2.1 hc.2),
          if_neg (fun hc => (decChar_ne_mark hd1).2.2 hc.2)]
      exact hdec0
  have hint : pyInt0 (String.mk ((d0 :: rest).map decChar)) =
      some (Int.ofNat (digitsFold 10 (d0 :: rest))) := by
    unfold pyInt0 pyIntOf
    have htl : (String.mk ((d0 :: rest).map decChar)).toList =
        decChar d0 :: rest.map decChar := rfl
    rw [htl, stripWs_eq_self _ hws]
    simp only [if_neg (decChar_ne_plus hd0), if_neg (decChar_ne_minus hd0), hbody,
      Option.map_some']
  unfold key_normalize
  rw [hint]

/-- `key_normalize` on a `0x`-prefixed hexadecimal digit string returns the
hexadecimal value (the happy half of the hex claim). -/
theorem key_normalize_hexadecimal (ds : List Nat) (h1 : ds ≠ [])
    (h2 : ∀ d ∈ ds, d < 16) :
    key_normalize ("0x" ++ String.mk (ds.map hexChar)) =
      some (Int.ofNat (digitsFold 16 ds)) := by
  obtain ⟨d0, rest, rfl⟩ : ∃ d0 rest, ds = d0 :: rest := by
    cases ds with
    | nil => exact absurd rfl h1
    | cons a l => exact ⟨a, l, rfl⟩
  have hd0 : d0 < 16 := h2 d0 (List.mem_cons_self d0 rest)
  have hws : ∀ x ∈ '0' :: 'x' :: hexChar d0 :: rest.map hexChar, isPyWs x = false := by
    intro x hx
    rcases List.mem_cons.mp hx with rfl | hx
    · decide
    rcases List.mem_cons.mp hx with rfl | hx
    · decide
    have hx2 : x ∈ (d0 :: rest).map hexChar := by simpa using hx
    obtain ⟨d, hd, rfl⟩ := List.mem_map.mp hx2
    exact hexChar_ws (h2 d hd)
  have hpd := pyDigits_map 16 hexChar (fun d hd => hexChar_dv hd)
    (fun d hd => hexChar_ne_us hd) d0 rest h2
  have hbody : pyIntBase0Body ('0' :: 'x' :: hexChar d0 :: rest.map hexChar) =
      some (digitsFold 16 (d0 :: rest)) := by
    rw [pyIntBase0Body]
    rw [if_pos ⟨rfl, Or.inl rfl⟩]
    rw [show pyDigitsPref 16 (hexChar d0 :: rest.map hexChar) =
        if hexChar d0 = '_' then pyDigits 16 (rest.map hexChar)
        else pyDigits 16 (hexChar d0 :: rest.map hexChar) from rfl]
    rw [if_neg (hexChar_ne_us hd0)]
    simpa using hpd
  have hint : pyInt0 ("0x" ++ String.mk ((d0 :: rest).map hexChar)) =
      some (Int.ofNat (digitsFold 16 (d0 :: rest))) := by
    unfold pyInt0 pyIntOf
    have htl : ("0x" ++ String.mk ((d0 :: rest).map hexChar)).toList =
        '0' :: 'x' :: hexChar d0 :: rest.map hexChar := rfl
    rw [htl, stripWs_eq_self _ hws]
    simp only [if_neg (by decide : ¬(('0' : Char) = '+')),
      if_neg (by decide : ¬(('0' : Char) = '-')), hbody, Option.map_some']
  unfold key_normalize
  rw [hint]

/-- Helper for C5: the per-file loop of `encrypt_usm` when every `Usm.open`
succeeds — each file is written to the output directory under its own name,
with both keys installed on its freshly opened container. -/
theorem encrypt_files_all_ok (core : Core) (outdir enc : String) (key : Option Int)
    (opens : PyPath → Usm) :
    ∀ files : List PyPath,
      (∀ f ∈ files, core.openResult f.toStr none none = Except.ok (opens f)) →
      encrypt_files core outdir enc key files =
        (files.map (fun f =>
           (joinPath outdir (pathName f.toStr),
            core.streamPackets (install_keys core key (opens f)) OpMode.ENCRYPT enc)),
         none) := by
  intro files
  induction files with
  | nil => intro _; rfl
  | cons f rest ih =>
    intro h
    have hf := h f (List.mem_cons_self f rest)
    have hrest := fun x hx => h x (List.mem_cons_of_mem f hx)
    simp [encrypt_files, hf, ih hrest]

/-! ## The claims -/

/-- C1 (code bug): the claim says `create` writes the serialized stream to
the path supplied via its `output` parameter; in the code the `output`
option (declared with help text "Output path.") is never read — the stream
is always written to `os.path.splitext(input)[0] + ".usm"` next to the
input.  First conjunct: the result of `create_usm` is identical for any
two values of `output`.  Second conjunct: at the concrete failing input
(`input="movie.mp4"`, `output="out/custom.usm"`), the written path is
`"movie.usm"`, not the requested output path. -/
theorem create_usm_ignores_output :
    (∀ (core : Core) (fs : FileSys) (input : String) (input_audio : Option String)
       (o1 o2 : Option String) (ffp : String) (key : Option Int) (enc : String),
       create_usm core fs input input_audio o1 ffp key enc =
         create_usm core fs input input_audio o2 ffp key enc) ∧
    (create_usm sampleCore sampleFs "movie.mp4" none (some "out/custom.usm") "."
        none "shift-jis").map Prod.fst = Except.ok "movie.usm" :=
  ⟨fun _ _ _ _ _ _ _ _ _ => rfl, by decide⟩

/-- C2 counterexample: a directory input with one USM whose `Usm.open`
fails with a core `MalformedTable` error; `extract` catches the
`ValueError`, prints the generic lines `ERROR` / `Please run probe on ...`
(not the failure kind), returns normally, and the process exit code is 0 —
refuting "non-zero exit code ... exit code 0 only when no core failure
occurred". -/
theorem extract_exit_zero_despite_core_failure :
    failCore.openResult "d/a.usm" (some "shift-jis") none =
      Except.error UsmError.malformedTable ∧
    extract_usm failCore sampleFs "d" "./output" none "shift-jis" false =
      Except.ok [["ERROR", "Please run probe on d/a.usm"],
                 ["ERROR", "Please run probe on d/b.usm"]] ∧
    exit_code (extract_usm failCore sampleFs "d" "./output" none "shift-jis" false) = 0 :=
  ⟨rfl, by decide, rfl⟩

/-- C2 (amended): when `Usm.open` or `demux` fails with a core error
(`ValueError`) on some file, `extract` catches it for that file, prints
`ERROR` and a suggestion to run probe, continues with the remaining files,
and the process still exits with code 0; the exit code is non-zero only
when `find_usm` itself fails (single-file input with a bad signature),
before any per-file processing. -/
theorem extract_error_policy (core : Core) (fs : FileSys) (input output : String)
    (key : Option Int) (enc : String) (pages : Bool) (files : List PyPath)
    (h : find_usm fs input = Except.ok files) :
    extract_usm core fs input output key enc pages =
      Except.ok (files.map (process_usm core output key enc pages)) ∧
    exit_code (extract_usm core fs input output key enc pages) = 0 ∧
    (∀ f ∈ files, ∀ e, core.openResult f.toStr (some enc) key = Except.error e →
       process_usm core output key enc pages f =
         ["ERROR", "Please run probe on " ++ f.toStr]) := by
  have hx : extract_usm core fs input output key enc pages =
      Except.ok (files.map (process_usm core output key enc pages)) := by
    simp [extract_usm, h]
  refine ⟨hx, by rw [hx]; rfl, ?_⟩
  intro f hf e he
  simp [process_usm, process_opened, he]

/-- C2 witness. -/
theorem extract_error_policy_witness :
    extract_usm failCore sampleFs "d" "./output" none "shift-jis" false =
      Except.ok ([PyPath.ppath "d/a.usm", PyPath.ppath "d/b.usm"].map
        (process_usm failCore "./output" none "shift-jis" false)) ∧
    exit_code (extract_usm failCore sampleFs "d" "./output" none "shift-jis" false) = 0 := by
  have h := extract_error_policy failCore sampleFs "d" "./output" none "shift-jis" false
    [PyPath.ppath "d/a.usm", PyPath.ppath "d/b.usm"] (by decide)
  exact ⟨h.1, h.2.1⟩

/-- C3 counterexample: `key_normalize` does not behave as claimed.
The decimal-form string `"010"` (decimal value 10) is first rejected by
`int(_, 0)` (leading zero) and then re-parsed as hex, yielding 16, not 10;
the value `2^64` (not representable in 64 bits) is accepted rather than
rejected; and the bare-hex string `"ff"`, which is neither decimal nor
`0x`-prefixed, is accepted as 255 rather than rejected. -/
theorem key_normalize_counterexample :
    key_normalize "010" = some 16 ∧
    key_normalize "0x10000000000000000" = some 18446744073709551616 ∧
    key_normalize "ff" = some 255 :=
  ⟨by decide, by decide, by decide⟩

/-- C3 (amended): `key_normalize` accepts every string accepted by Python's
`int(s, 0)` — decimal without spurious leading zeros, and `0x`/`0o`/`0b`
prefixed forms — and any string that parses as hexadecimal after
prepending `0x` (bare hex, zero-padded digit strings); there is no 64-bit
range check.  For canonical decimal digit strings (no leading zero unless
the value is 0) it returns the decimal value, and for `0x`-prefixed hex
digit strings it returns the hex value, of any magnitude. -/
theorem key_normalize_amended :
    (∀ ds : List Nat, ds ≠ [] → (∀ d ∈ ds, d < 10) →
       (ds.head? = some 0 → digitsFold 10 ds = 0) →
       key_normalize (String.mk (ds.map decChar)) =
         some (Int.ofNat (digitsFold 10 ds))) ∧
    (∀ ds : List Nat, ds ≠ [] → (∀ d ∈ ds, d < 16) →
       key_normalize ("0x" ++ String.mk (ds.map hexChar)) =
         some (Int.ofNat (digitsFold 16 ds))) ∧
    key_normalize "ff" = some 255 ∧
    key_normalize "0b101" = some 5 ∧
    key_normalize "0x10000000000000000" = some 18446744073709551616 :=
  ⟨key_normalize_decimal, key_normalize_hexadecimal, by decide, by decide, by decide⟩

/-- C3 witness. -/
theorem key_normalize_amended_witness :
    key_normalize "123" = some 123 ∧ key_normalize "0xff" = some 255 :=
  ⟨key_normalize_amended.1 [1, 2, 3] (by decide) (by decide) (by decide),
   key_normalize_amended.2.1 [15, 15] (by decide) (by decide)⟩

/-- C4: for a file input whose first four bytes are not the `CRID`
signature, `find_usm` raises `ValueError("Not a usm file.")` before any
container operation, and all three commands (`extract`, `probe`,
`encrypt`) fail with it.  The conclusion holds for EVERY core `core`, so
no container operation can have influenced the outcome. -/
theorem bad_signature_rejected (core : Core) (fs : FileSys) (input : String)
    (output tempDir : String) (key okey : Option Int) (enc : String) (pages : Bool)
    (outp : Option String)
    (h1 : fs.isFile input = true)
    (h2 : is_usm (fs.read4 input) = false) :
    extract_usm core fs input output key enc pages = Except.error CliError.notUsmFile ∧
    probe_usm core fs input tempDir enc = Except.error CliError.notUsmFile ∧
    encrypt_usm core fs input outp okey enc = ([], some CliError.notUsmFile) := by
  have hf : find_usm fs input = Except.error CliError.notUsmFile := by
    simp [find_usm, h1, h2]
  exact ⟨by simp [extract_usm, hf], by simp [probe_usm, hf], by simp [encrypt_usm, hf]⟩

/-- C4 witness. -/
theorem bad_signature_rejected_witness :
    extract_usm sampleCore sampleFs "bad.bin" "./output" none "shift-jis" false =
      Except.error CliError.notUsmFile ∧
    probe_usm sampleCore sampleFs "bad.bin" "/tmp" "shift-jis" =
      Except.error CliError.notUsmFile ∧
    encrypt_usm sampleCore sampleFs "bad.bin" none none "shift-jis" =
      ([], some CliError.notUsmFile) :=
  bad_signature_rejected sampleCore sampleFs "bad.bin" "./output" "/tmp" none none
    "shift-jis" false none (by decide) (by decide)

/-- C5: for every USM file located from the input, `encrypt` opens its
container, installs BOTH `video_key` and `audio_key` (derived together by
`generate_keys` from the one key argument — never one without the other),
and writes every packet of `stream(OpMode.ENCRYPT, encoding)` to the file
of the same name in the output directory. -/
theorem encrypt_usm_spec (core : Core) (fs : FileSys) (input : String)
    (output : Option String) (key : Option Int) (enc : String)
    (files : List PyPath) (opens : PyPath → Usm)
    (hfind : find_usm fs input = Except.ok files)
    (hopen : ∀ f ∈ files, core.openResult f.toStr none none = Except.ok (opens f)) :
    encrypt_usm core fs input output key enc =
      (files.map (fun f =>
         (joinPath (encrypt_outdir fs input output) (pathName f.toStr),
          core.streamPackets (install_keys core key (opens f)) OpMode.ENCRYPT enc)),
       none) ∧
    (∀ u : Usm,
       (install_keys core key u).video_key = some (core.generateKeys key).1 ∧
       (install_keys core key u).audio_key = some (core.generateKeys key).2 ∧
       (install_keys core key u).video_key.isSome = true ∧
       (install_keys core key u).audio_key.isSome = true) := by
  constructor
  · simp only [encrypt_usm, hfind]
    exact encrypt_files_all_ok core (encrypt_outdir fs input output) enc key opens files hopen
  · intro u
    exact ⟨rfl, rfl, rfl, rfl⟩

/-- C5 witness. -/
theorem encrypt_usm_spec_witness :
    encrypt_usm sampleCore sampleFs "d" (some "out") (some 5) "shift-jis" =
      ([("out/a.usm", [[1, 2], [3]]), ("out/b.usm", [[1, 2], [3]])], none) := by
  have h := (encrypt_usm_spec sampleCore sampleFs "d" (some "out") (some 5) "shift-jis"
    [PyPath.ppath "d/a.usm", PyPath.ppath "d/b.usm"] (fun _ => {}) (by decide)
    (by decide)).1
  exact h

/-- C6: `create` consumes `stream` with `OpMode.ENCRYPT` exactly when a
key argument is supplied and with `OpMode.NONE` otherwise, and the key is
installed on the container at construction (`Usm(videos, audios, key=key)`),
so `ENCRYPT` is only ever used with keys installed. -/
theorem create_usm_mode_spec :
    (∀ key : Option Int, create_mode key = OpMode.ENCRYPT ↔ key ≠ none) ∧
    (∀ key : Option Int, create_mode key = OpMode.NONE ↔ key = none) ∧
    (∀ (core : Core) (videos : List Video) (audios : Option (List String)) (k : Int),
       (Usm.new core videos audios (some k)).video_key =
         some (core.generateKeys (some k)).1 ∧
       (Usm.new core videos audios (some k)).audio_key =
         some (core.generateKeys (some k)).2) ∧
    (∀ (core : Core) (fs : FileSys) (input : String) (input_audio : Option String)
       (output : Option String) (ffp : String) (key : Option Int) (enc : String),
       ¬(core.probeCodec input = Sofdec2Codec.other) →
       create_usm core fs input input_audio output ffp key enc =
         Except.ok (splitextRoot input ++ ".usm",
           core.streamPackets
             (Usm.new core [⟨input, core.probeCodec input, find_ffprobe fs ffp⟩]
               (input_audio.map (fun a => [a])) key)
             (create_mode key) enc)) := by
  refine ⟨fun key => by cases key <;> simp [create_mode],
          fun key => by cases key <;> simp [create_mode],
          fun core videos audios k => ⟨rfl, rfl⟩, ?_⟩
  intro core fs input input_audio output ffp key enc h
  cases hc : core.probeCodec input with
  | vp9 => simp [create_usm, hc]
  | h264 => simp [create_usm, hc]
  | other => exact absurd hc h

/-- C6 witness. -/
theorem create_usm_mode_spec_witness :
    create_usm sampleCore sampleFs "movie.mp4" none none "." (some 1) "shift-jis" =
      Except.ok ("movie.usm",
        sampleCore.streamPackets
          (Usm.new sampleCore [⟨"movie.mp4", Sofdec2Codec.vp9, none⟩] none (some 1))
          OpMode.ENCRYPT "shift-jis") := by
  have h := create_usm_mode_spec.2.2.2 sampleCore sampleFs "movie.mp4" none none "."
    (some 1) "shift-jis" (by decide)
  exact h

/-- C7: when the probed codec of the input video is neither VP9 nor H.264,
`create` raises `NotImplementedError` (the spec's unsupported-codec
failure) before opening any output file, so nothing is written. -/
theorem create_usm_unsupported_codec (core : Core) (fs : FileSys) (input : String)
    (input_audio : Option String) (output : Option String) (ffp : String)
    (key : Option Int) (enc : String)
    (h1 : ¬(core.probeCodec input = Sofdec2Codec.vp9))
    (h2 : ¬(core.probeCodec input = Sofdec2Codec.h264)) :
    create_usm core fs input input_audio output ffp key enc =
      Except.error CliError.notImplemented := by
  have hc : core.probeCodec input = Sofdec2Codec.other := by
    cases h : core.probeCodec input with
    | vp9 => exact absurd h h1
    | h264 => exact absurd h h2
    | other => rfl
  simp [create_usm, hc]

/-- C7 witness. -/
theorem create_usm_unsupported_codec_witness :
    create_usm sampleCore sampleFs "clip.avi" none none "." none "shift-jis" =
      Except.error CliError.notImplemented :=
  create_usm_unsupported_codec sampleCore sampleFs "clip.avi" none none "." none
    "shift-jis" (by decide) (by decide)

/-- C8: the work `extract` distributes over its worker threads is an
independent map over the found files — each task is a pure function of its
own file, and each task's container is obtained by calling `Usm.open` on
that file alone (second conjunct), so no container object is shared
between two tasks (shared-nothing parallelism; the only shared object is
the progress bar, which never touches a container). -/
theorem extract_shared_nothing (core : Core) (fs : FileSys) (input output : String)
    (key : Option Int) (enc : String) (pages : Bool) (files : List PyPath)
    (h : find_usm fs input = Except.ok files) :
    extract_usm core fs input output key enc pages =
      Except.ok (files.map (process_usm core output key enc pages)) ∧
    (∀ f : PyPath, process_usm core output key enc pages f =
       process_opened core output pages f (core.openResult f.toStr (some enc) key)) :=
  ⟨by simp [extract_usm, h], fun f => rfl⟩

/-- C8 witness. -/
theorem extract_shared_nothing_witness :
    extract_usm sampleCore sampleFs "d" "./output" none "shift-jis" false =
      Except.ok ([PyPath.ppath "d/a.usm", PyPath.ppath "d/b.usm"].map
        (process_usm sampleCore "./output" none "shift-jis" false)) :=
  (extract_shared_nothing sampleCore sampleFs "d" "./output" none "shift-jis" false
    [PyPath.ppath "d/a.usm", PyPath.ppath "d/b.usm"] (by decide)).1

/-- C9: `dir_or_parent_dir` returns the resolved parent for an existing
directory and the path itself (unchanged) for every other path, including
a regular file; consequently `encrypt` on a single file with no output
option writes to the output filename joined onto the input FILE path
itself (`film.usm/film.usm`-style destination). -/
theorem dir_or_parent_dir_spec :
    (∀ (fs : FileSys) (p : String), fs.isDir p = true →
       dir_or_parent_dir fs p = fs.resolve (parentPath p)) ∧
    (∀ (fs : FileSys) (p : String), fs.isDir p = false →
       dir_or_parent_dir fs p = p) ∧
    (∀ (core : Core) (fs : FileSys) (f : String) (key : Option Int) (enc : String)
       (u : Usm),
       fs.isFile f = true → fs.isDir f = false →
       is_usm (fs.read4 f) = true →
       core.openResult f none none = Except.ok u →
       encrypt_usm core fs f none key enc =
         ([(joinPath f (pathName f),
            core.streamPackets (install_keys core key u) OpMode.ENCRYPT enc)], none)) := by
  refine ⟨fun fs p h => by simp [dir_or_parent_dir, h],
          fun fs p h => by simp [dir_or_parent_dir, h], ?_⟩
  intro core fs f key enc u h1 h2 h3 h4
  have hf : find_usm fs f = Except.ok [PyPath.pstr f] := by
    simp [find_usm, h1, h3]
  simp [encrypt_usm, hf, encrypt_outdir, dir_or_parent_dir, h2, encrypt_files,
    PyPath.toStr, h4]

/-- C9 witness. -/
theorem dir_or_parent_dir_spec_witness :
    dir_or_parent_dir sampleFs "d" = sampleFs.resolve (parentPath "d") ∧
    dir_or_parent_dir sampleFs "film.usm" = "film.usm" ∧
    encrypt_usm sampleCore sampleFs "film.usm" none (some 5) "shift-jis" =
      ([("film.usm/film.usm",
         sampleCore.streamPackets (install_keys sampleCore (some 5) {})
           OpMode.ENCRYPT "shift-jis")], none) :=
  ⟨dir_or_parent_dir_spec.1 sampleFs "d" (by decide),
   dir_or_parent_dir_spec.2.1 sampleFs "film.usm" (by decide),
   dir_or_parent_dir_spec.2.2 sampleCore sampleFs "film.usm" (some 5) "shift-jis" {}
     (by decide) (by decide) (by decide) (by decide)⟩

/-- C10: for a directory input, `find_usm` returns, without error, exactly
the `*.usm` glob children whose first four bytes pass `is_usm`, in glob
enumeration order (a sublist of the glob order, membership characterized
by the filter), and the empty list when no child qualifies. -/
theorem find_usm_directory (fs : FileSys) (input : String)
    (h : fs.isFile input = false) :
    find_usm fs input =
      Except.ok (((fs.globUsm input).filter
        (fun f => is_usm (fs.read4 f))).map PyPath.ppath) ∧
    (∀ f, f ∈ (fs.globUsm input).filter (fun f => is_usm (fs.read4 f)) ↔
       f ∈ fs.globUsm input ∧ is_usm (fs.read4 f) = true) ∧
    List.Sublist ((fs.globUsm input).filter (fun f => is_usm (fs.read4 f)))
      (fs.globUsm input) ∧
    ((∀ f ∈ fs.globUsm input, is_usm (fs.read4 f) = false) →
       find_usm fs input = Except.ok []) := by
  refine ⟨by simp [find_usm, h], fun f => List.mem_filter, List.filter_sublist _, ?_⟩
  intro hall
  have hnil : (fs.globUsm input).filter (fun f => is_usm (fs.read4 f)) = [] := by
    rw [List.filter_eq_nil_iff]
    intro a ha
    simp [hall a ha]
  simp [find_usm, h, hnil]

/-- C10 witness. -/
theorem find_usm_directory_witness :
    find_usm sampleFs "d" =
      Except.ok [PyPath.ppath "d/a.usm", PyPath.ppath "d/b.usm"] ∧
    find_usm sampleFs "nodir" = Except.ok [] := by
  constructor
  · exact (find_usm_directory sampleFs "d" (by decide)).1
  · refine (find_usm_directory sampleFs "nodir" (by decide)).2.2.2 ?_
    intro f hf
    simp [sampleFs] at hf
